import Mathlib

set_option maxRecDepth 100000

/-
Verification of the stream-deck-insert-timestamp plugin (src/src/plugin.ts).

The plugin has three pieces:
  * getFormattedTimestamp : a switch on a format selector string producing a
    rendering of the current instant;
  * copyPasteText : platform dispatch (win32 / darwin / otherwise-linux) that
    escapes the text, shells out to set the clipboard, then shells out to send
    a paste keystroke, with one try/catch per branch;
  * onKeyDown : the key handler, which reads the format from the settings,
    formats, inserts, shows the OK acknowledgment on success and catches and
    logs every error.

The JavaScript Date object and the external commands are host primitives, not
repository code; their behaviour is modelled explicitly below (Date as a
record of its accessor results, command execution as an oracle returning
success or a stringified failure).
-/

/- Characters that the escaping routines manipulate, by code point, so that
the command strings below stay readable. -/

def bqC : Char := Char.ofNat 96

def sqC : Char := Char.ofNat 39

def dqC : Char := Char.ofNat 34

def bsC : Char := Char.ofNat 92

def dollarC : Char := Char.ofNat 36

def nlC : Char := Char.ofNat 10

def sqS : String := String.mk [sqC]

/-- Model of the JavaScript text.replace(/c/g, r) call for a one-character
pattern c and a replacement with no special replacement patterns: every
occurrence of c in s is replaced by the character list r. -/
def replaceChar (c : Char) (r : List Char) (s : String) : String :=
  String.mk (s.data.foldr (fun ch acc => (if ch = c then r else [ch]) ++ acc) [])

/-- The Windows escaping chain of copyPasteText (plugin.ts lines 131-136),
applied in source order: backticks, then dollar signs, then double quotes,
then single quotes via doubling, then backslashes. -/
def winEscape (s : String) : String :=
  replaceChar bsC [bsC, bsC]
    (replaceChar sqC [sqC, sqC]
      (replaceChar dqC [bqC, dqC]
        (replaceChar dollarC [bqC, dollarC]
          (replaceChar bqC [bqC, bqC] s))))

/-- The macOS and Linux escaping of copyPasteText (plugin.ts lines 158 and
171): each double quote is replaced by backslash double-quote. -/
def posixEscape (s : String) : String :=
  replaceChar dqC [bsC, dqC] s

/-- The PowerShell command built on the win32 branch (plugin.ts line 142). -/
def winCommand (text : String) : String :=
  "powershell -command \"Set-Clipboard -Value " ++ sqS ++ winEscape text ++ sqS ++
    "; Add-Type -AssemblyName System.Windows.Forms; [System.Windows.Forms.SendKeys]::SendWait(" ++
    sqS ++ "^v" ++ sqS ++ ")\""

/-- The clipboard command on the darwin branch (plugin.ts line 158). -/
def macCopyCmd (text : String) : String :=
  "echo -n \"" ++ posixEscape text ++ "\" | pbcopy"

/-- The keystroke command on the darwin branch (plugin.ts lines 159-160). -/
def macKeyCmd : String :=
  "osascript -e " ++ sqS ++
    "tell application \"System Events\" to keystroke \"v\" using command down" ++ sqS

/-- The clipboard command on the Linux branch (plugin.ts line 171). -/
def linuxCopyCmd (text : String) : String :=
  "echo -n \"" ++ posixEscape text ++ "\" | xclip -selection clipboard"

/-- The keystroke command on the Linux branch (plugin.ts line 173). -/
def linuxKeyCmd : String := "xdotool key ctrl+v"

/-- Parser loop for a PowerShell single-quoted literal. The input list is the
fragment followed by the closing quote. Inside single quotes PowerShell
treats every character literally except a quote: a doubled quote stands for
one literal quote, and a single quote terminates the literal. The result is
some value only when the literal terminates exactly at the appended closing
quote, i.e. when the whole fragment stays inside the literal. -/
def psSQGo : List Char → List Char → Option String
  | [], _ => none
  | c :: rest, acc =>
    if c = sqC then
      match rest with
      | [] => some (String.mk acc.reverse)
      | c2 :: rest2 =>
        if c2 = sqC then psSQGo rest2 (sqC :: acc) else none
    else psSQGo rest (c :: acc)

/-- Value of the PowerShell single-quoted literal whose body is frag,
following the PowerShell quoting rules (backtick is NOT an escape character
inside single quotes; only a doubled quote is). -/
def psSQEval (frag : String) : Option String :=
  psSQGo (frag.data ++ [sqC]) []

/-- Characters that keep their special meaning after a backslash inside a
POSIX double-quoted string: dollar, backquote, double quote, backslash. -/
def dqSpecialAfterBs (c : Char) : Bool :=
  c = dollarC || c = bqC || c = dqC || c = bsC

/-- Parser loop for the body of a POSIX double-quoted string. Backslash
escapes dollar, backquote, quote and backslash; backslash-newline is a line
continuation; before any other character the backslash is literal. An
unescaped double quote ends the string before the intended closing quote, an
unescaped dollar or backquote starts an expansion, and a trailing backslash
escapes the closing quote: in those cases the fragment has no fixed literal
value, so the result is none. -/
def dqGo : List Char → List Char → Option String
  | [], acc => some (String.mk acc.reverse)
  | c :: rest, acc =>
    if c = bsC then
      match rest with
      | [] => none
      | c2 :: rest2 =>
        if dqSpecialAfterBs c2 then dqGo rest2 (c2 :: acc)
        else if c2 = nlC then dqGo rest2 acc
        else dqGo rest2 (c2 :: bsC :: acc)
    else if c = dqC then none
    else if c = dollarC then none
    else if c = bqC then none
    else dqGo rest (c :: acc)

/-- Literal value of the POSIX double-quoted string whose body is frag, when
it has one. -/
def dqEval (frag : String) : Option String :=
  dqGo frag.data []

/-- Model of the JavaScript Date object as the record of the accessor results
the plugin reads. Local-time and UTC components are independent fields (their
relation is the time-zone offset of the environment); the three toLocale
renderings are locale-dependent host outputs and are kept opaque. Month
fields are 0-indexed as in JavaScript. -/
structure Date where
  getFullYear : Nat
  getMonth : Nat
  getDate : Nat
  getHours : Nat
  getMinutes : Nat
  getSeconds : Nat
  getUTCFullYear : Nat
  getUTCMonth : Nat
  getUTCDate : Nat
  getUTCHours : Nat
  getUTCMinutes : Nat
  getUTCSeconds : Nat
  getUTCMilliseconds : Nat
  toLocaleDateString : String
  toLocaleStringEnUSLong : String
  toLocaleTimeString : String
deriving DecidableEq

/-- Model of the JavaScript String.prototype.padStart(n, c): pad on the left
with c up to length n. -/
def padStart (s : String) (n : Nat) (c : Char) : String :=
  String.mk (List.replicate (n - s.length) c) ++ s

/-- Modelled from the ECMAScript specification of Date.prototype.toISOString
(a host-runtime builtin, not repository code): the UTC components rendered as
YYYY-MM-DDTHH:mm:ss.sssZ. -/
def toISOString (d : Date) : String :=
  padStart (toString d.getUTCFullYear) 4 '0' ++ "-" ++
    padStart (toString (d.getUTCMonth + 1)) 2 '0' ++ "-" ++
    padStart (toString d.getUTCDate) 2 '0' ++ "T" ++
    padStart (toString d.getUTCHours) 2 '0' ++ ":" ++
    padStart (toString d.getUTCMinutes) 2 '0' ++ ":" ++
    padStart (toString d.getUTCSeconds) 2 '0' ++ "." ++
    padStart (toString d.getUTCMilliseconds) 3 '0' ++ "Z"

/-- getFormattedTimestamp (plugin.ts lines 77-117): a switch on the selector
with a default falling back to toLocaleDateString, the same result as the
short branch. The custom branch builds the template literal from the local
components, month incremented by one and every time component padded with
String(x).padStart(2, zero). -/
def getFormattedTimestamp (format : String) (now : Date) : String :=
  if format = "short" then now.toLocaleDateString
  else if format = "long" then now.toLocaleStringEnUSLong
  else if format = "time" then now.toLocaleTimeString
  else if format = "iso" then toISOString now
  else if format = "custom" then
    toString now.getFullYear ++ "-" ++
      padStart (toString (now.getMonth + 1)) 2 '0' ++ "-" ++
      padStart (toString now.getDate) 2 '0' ++ " " ++
      padStart (toString now.getHours) 2 '0' ++ "-" ++
      padStart (toString now.getMinutes) 2 '0' ++ "-" ++
      padStart (toString now.getSeconds) 2 '0'
  else now.toLocaleDateString

/-- The three values of process.platform the dispatch distinguishes:
win32, darwin, and everything else taken as Linux. -/
inductive Platform
  | win32
  | darwin
  | linux
deriving DecidableEq

/-- Outcome of one execAsync call: fulfilled, or rejected with an error whose
template-literal rendering is the carried string. -/
inductive ExecResult
  | success
  | failure (err : String)
deriving DecidableEq

/-- Log levels the plugin uses. -/
inductive LogLevel
  | info
  | warn
  | error
deriving DecidableEq

/-- Observable outcome of one copyPasteText call: the commands passed to
execAsync in order, the log entries in order, and the message of the thrown
error if the promise rejected. -/
structure CopyResult where
  commands : List String
  logs : List (LogLevel × String)
  thrown : Option String
deriving DecidableEq

def winWrapMsg (e : String) : String :=
  "Error inserting timestamp on Windows: " ++ e

def macWrapMsg (e : String) : String :=
  "Error inserting timestamp on macOS: " ++ e

def linuxWarnMsg : String := "Linux support requires xclip/xdotool"

def linuxErrMsg : String :=
  "Linux support requires xclip/xdotool. Please install these utilities and try again."

/-- copyPasteText (plugin.ts lines 122-179). Each platform branch runs its
external commands in order through the exec oracle, stops at the first
rejection, and its catch logs and throws: Windows and macOS interpolate the
underlying error into the wrapped message, Linux logs a warning and throws a
fixed message naming the required utilities. -/
def copyPasteText (p : Platform) (execB : String → ExecResult) (text : String) : CopyResult :=
  match p with
  | Platform.win32 =>
    let escapedText := winEscape text
    let command := winCommand text
    let baseLogs : List (LogLevel × String) :=
      [(LogLevel.info, "Inserting timestamp on Windows"),
       (LogLevel.info, "Escaped text: " ++ escapedText),
       (LogLevel.info, "Running command: " ++ command)]
    match execB command with
    | ExecResult.success => ⟨[command], baseLogs, none⟩
    | ExecResult.failure e =>
      ⟨[command], baseLogs ++ [(LogLevel.error, winWrapMsg e)], some (winWrapMsg e)⟩
  | Platform.darwin =>
    match execB (macCopyCmd text) with
    | ExecResult.failure e =>
      ⟨[macCopyCmd text], [(LogLevel.error, macWrapMsg e)], some (macWrapMsg e)⟩
    | ExecResult.success =>
      match execB macKeyCmd with
      | ExecResult.failure e =>
        ⟨[macCopyCmd text, macKeyCmd], [(LogLevel.error, macWrapMsg e)], some (macWrapMsg e)⟩
      | ExecResult.success => ⟨[macCopyCmd text, macKeyCmd], [], none⟩
  | Platform.linux =>
    match execB (linuxCopyCmd text) with
    | ExecResult.failure _ =>
      ⟨[linuxCopyCmd text], [(LogLevel.warn, linuxWarnMsg)], some linuxErrMsg⟩
    | ExecResult.success =>
      match execB linuxKeyCmd with
      | ExecResult.failure _ =>
        ⟨[linuxCopyCmd text, linuxKeyCmd], [(LogLevel.warn, linuxWarnMsg)], some linuxErrMsg⟩
      | ExecResult.success => ⟨[linuxCopyCmd text, linuxKeyCmd], [], none⟩

/-- The selector actually passed to getFormattedTimestamp by onKeyDown
(plugin.ts line 59): settings.format when present and truthy, the string
default otherwise (the empty string is falsy in JavaScript). -/
def formatOfSettings : Option String → String
  | none => "default"
  | some s => if s = "" then "default" else s

/-- Observable outcome of one onKeyDown call: how often showOk resolved, the
log entries in order, and the error propagated to the host (always none: the
handler catches everything). -/
structure KeyDownResult where
  showOkCalls : Nat
  logs : List (LogLevel × String)
  thrown : Option String
deriving DecidableEq

/-- onKeyDown (plugin.ts lines 56-75): read the format from the settings,
format the timestamp, log it, run copyPasteText, and on success show the OK
acknowledgment once; the catch logs the error (a thrown Error renders as the
text Error: followed by its message) and swallows it. -/
def onKeyDown (p : Platform) (execB : String → ExecResult) (now : Date)
    (settingsFormat : Option String) : KeyDownResult :=
  let format := formatOfSettings settingsFormat
  let timestamp := getFormattedTimestamp format now
  let infoLog : LogLevel × String :=
    (LogLevel.info, "Got timestamp: " ++ timestamp ++ " (format: " ++ format ++ ")")
  let r := copyPasteText p execB timestamp
  match r.thrown with
  | none => ⟨1, infoLog :: r.logs, none⟩
  | some m =>
    ⟨0, (infoLog :: r.logs) ++ [(LogLevel.error, "Error getting timestamp: Error: " ++ m)], none⟩

/-- A string contains another as a contiguous substring. -/
def strContains (s pat : String) : Prop :=
  pat.data <:+: s.data

instance (s pat : String) : Decidable (strContains s pat) :=
  inferInstanceAs (Decidable (pat.data <:+: s.data))

/-- The two clipboard-and-keystroke effects of the external commands. -/
inductive Step
  | clipboardWrite
  | pasteKeystroke
deriving DecidableEq

/-- Effects of one executed command, modelled from the spec description of
the external utilities: Set-Clipboard, pbcopy and xclip write the clipboard;
SendKeys, osascript and xdotool send the paste keystroke. The Windows
command contains a Set-Clipboard statement followed (sequenced by the
semicolon) by a SendKeys call, so it contributes a clipboard write and then
a keystroke. -/
def stepsOfCmd (cmd : String) : List Step :=
  (if strContains cmd "Set-Clipboard" ∨ strContains cmd "pbcopy" ∨ strContains cmd "xclip"
   then [Step.clipboardWrite] else []) ++
  (if strContains cmd "SendKeys" ∨ strContains cmd "osascript" ∨ strContains cmd "xdotool"
   then [Step.pasteKeystroke] else [])

def stepsOfTrace : List String → List Step
  | [] => []
  | c :: cs => stepsOfCmd c ++ stepsOfTrace cs

/-- The clipboard and keystroke effects of one copyPasteText call, in
execution order. -/
def stepTrace (p : Platform) (execB : String → ExecResult) (text : String) : List Step :=
  stepsOfTrace (copyPasteText p execB text).commands

/-- The spec phrase zero-padded to two digits, written from the spec words. -/
def specPad2 (n : Nat) : String :=
  if n < 10 then "0" ++ toString n else toString n

/-- The fixed custom layout stated by the spec: YYYY-MM-DD HH-MM-SS in local
time, month, day, hours, minutes and seconds zero-padded to two digits, the
time segments separated by hyphens. Written from the spec words, to be
compared with the custom branch of getFormattedTimestamp. -/
def specCustomLayout (d : Date) : String :=
  toString d.getFullYear ++ "-" ++ specPad2 (d.getMonth + 1) ++ "-" ++
    specPad2 d.getDate ++ " " ++ specPad2 d.getHours ++ "-" ++
    specPad2 d.getMinutes ++ "-" ++ specPad2 d.getSeconds

/-- The spec sample instant 2024-04-05T18:30:00Z seen from a UTC-5 local
zone: local time 13:30:00 on April 5, UTC time 18:30:00.000 the same day,
with plausible en-US locale renderings for the opaque fields. -/
def sampleDate : Date :=
  ⟨2024, 3, 5, 13, 30, 0, 2024, 3, 5, 18, 30, 0, 0,
   "4/5/2024", "Friday, April 5, 2024 at 1:30:00 PM", "1:30:00 PM"⟩

/-- Exec oracle where every command succeeds. -/
def execOkAll : String → ExecResult := fun _ => ExecResult.success

/-- Exec oracle where every command fails with the text boom. -/
def execFailAll : String → ExecResult := fun _ => ExecResult.failure "boom"

/-- Exec oracle failing exactly on one given command. -/
def execFailOn (cmd e : String) : String → ExecResult :=
  fun c => if c = cmd then ExecResult.failure e else ExecResult.success

/-- The escaping at character-list level, for the induction on C2. -/
def posixEscapeL : List Char → List Char
  | [] => []
  | c :: cs => (if c = dqC then [bsC, dqC] else [c]) ++ posixEscapeL cs

theorem strMk_data (s : String) : String.mk s.data = s := rfl

theorem strData_append (s t : String) : (s ++ t).data = s.data ++ t.data := rfl

theorem strContains_append_left (a b pat : String) (h : strContains a pat) :
    strContains (a ++ b) pat := by
  obtain ⟨u, v, huv⟩ := h
  exact ⟨u, v ++ b.data, by rw [strData_append, ← huv]; simp [List.append_assoc]⟩

theorem strContains_append_right (a b : String) : strContains (a ++ b) b :=
  ⟨a.data, [], by rw [strData_append]; simp⟩

theorem foldr_posixEscapeL (cs : List Char) :
    cs.foldr (fun ch acc => (if ch = dqC then [bsC, dqC] else [ch]) ++ acc) [] =
      posixEscapeL cs := by
  induction cs with
  | nil => rfl
  | cons c cs ih => simp [posixEscapeL, ih]

theorem posixEscape_data (s : String) : (posixEscape s).data = posixEscapeL s.data := by
  show (String.mk (s.data.foldr _ [])).data = _
  rw [show (String.mk (s.data.foldr (fun ch acc =>
      (if ch = dqC then [bsC, dqC] else [ch]) ++ acc) [])).data =
      s.data.foldr (fun ch acc => (if ch = dqC then [bsC, dqC] else [ch]) ++ acc) [] from rfl]
  exact foldr_posixEscapeL s.data

theorem dqGo_posixEscapeL :
    ∀ (cs acc : List Char), (∀ c ∈ cs, c ≠ bsC ∧ c ≠ dollarC ∧ c ≠ bqC) →
      dqGo (posixEscapeL cs) acc = some (String.mk (acc.reverse ++ cs)) := by
  intro cs
  induction cs with
  | nil => intro acc _; simp [posixEscapeL, dqGo]
  | cons c cs ih =>
    intro acc h
    have hc := h c (List.mem_cons_self c cs)
    have hrest : ∀ x ∈ cs, x ≠ bsC ∧ x ≠ dollarC ∧ x ≠ bqC :=
      fun x hx => h x (List.mem_cons_of_mem c hx)
    by_cases hdq : c = dqC
    · subst hdq
      show dqGo (bsC :: dqC :: posixEscapeL cs) acc = _
      rw [show dqGo (bsC :: dqC :: posixEscapeL cs) acc =
          dqGo (posixEscapeL cs) (dqC :: acc) by simp [dqGo, dqSpecialAfterBs]]
      rw [ih (dqC :: acc) hrest]
      simp
    · rw [show posixEscapeL (c :: cs) = c :: posixEscapeL cs by simp [posixEscapeL, hdq]]
      rw [show dqGo (c :: posixEscapeL cs) acc = dqGo (posixEscapeL cs) (c :: acc) by
        rw [dqGo.eq_def]; simp [hc.1, hc.2.1, hc.2.2, hdq]]
      rw [ih (c :: acc) hrest]
      simp

/-- C1: the claim says the Windows escaping chain round-trips through the
single-quoted PowerShell literal of the generated Set-Clipboard command. It
does not: PowerShell treats a backtick inside single quotes literally, so the
one-character input consisting of a backtick is escaped to two backticks and
the literal evaluates to two backticks, not to the original. The code is the
slip: the backtick, dollar and double-quote escapes belong to double-quoted
PowerShell strings, yet the escaped text is embedded in single quotes. -/
theorem c1_backtick_not_roundtrip :
    winEscape (String.mk [bqC]) = String.mk [bqC, bqC] ∧
    psSQEval (winEscape (String.mk [bqC])) = some (String.mk [bqC, bqC]) ∧
    psSQEval (winEscape (String.mk [bqC])) ≠ some (String.mk [bqC]) := by decide

/-- C2 counterexample: the claim quantifies over every string containing a
double quote, but for the two-character input backslash double-quote the
escaping yields backslash backslash double-quote, which a POSIX shell reads
as a literal backslash followed by an unescaped quote ending the string
early, so the fragment has no literal value equal to the original. -/
theorem c2_backslash_quote_counterexample :
    posixEscape (String.mk [bsC, dqC]) = String.mk [bsC, bsC, dqC] ∧
    dqEval (posixEscape (String.mk [bsC, dqC])) = none ∧
    dqEval (posixEscape (String.mk [bsC, dqC])) ≠ some (String.mk [bsC, dqC]) := by decide

/-- C2 amended: for every string that contains a double quote and contains
none of backslash, dollar sign and backquote, the escaping used on the macOS
and Linux branches produces a fragment whose POSIX double-quoted evaluation
is exactly the original string. -/
theorem c2_posix_escape_roundtrip :
    ∀ s : String, dqC ∈ s.data →
      (∀ c ∈ s.data, c ≠ bsC ∧ c ≠ dollarC ∧ c ≠ bqC) →
      dqEval (posixEscape s) = some s := by
  intro s _ h
  unfold dqEval
  rw [posixEscape_data, dqGo_posixEscapeL s.data [] h]
  simp [strMk_data]

theorem c2_posix_escape_roundtrip_witness :
    dqEval (posixEscape "a\"b") = some "a\"b" :=
  c2_posix_escape_roundtrip "a\"b" (by decide) (by decide)

theorem padStart2_eq_specPad2 : ∀ n, n < 100 → padStart (toString n) 2 '0' = specPad2 n := by
  decide

/-- C6: for every instant with in-range local components, the custom selector
returns the fixed local-time layout YYYY-MM-DD HH-MM-SS, month, day, hours,
minutes and seconds zero-padded to two digits and the time segments separated
by hyphens; the spec sample instant 2024-04-05T18:30:00Z in a UTC-5 local
zone yields 2024-04-05 13-30-00. -/
theorem c6_custom_layout :
    (∀ d : Date, d.getMonth < 12 → d.getDate ≤ 31 → d.getHours < 24 →
        d.getMinutes < 60 → d.getSeconds < 60 →
        getFormattedTimestamp "custom" d = specCustomLayout d) ∧
    getFormattedTimestamp "custom" sampleDate = "2024-04-05 13-30-00" := by
  constructor
  · intro d h1 h2 h3 h4 h5
    have e1 := padStart2_eq_specPad2 (d.getMonth + 1) (by omega)
    have e2 := padStart2_eq_specPad2 d.getDate (by omega)
    have e3 := padStart2_eq_specPad2 d.getHours (by omega)
    have e4 := padStart2_eq_specPad2 d.getMinutes (by omega)
    have e5 := padStart2_eq_specPad2 d.getSeconds (by omega)
    show toString d.getFullYear ++ "-" ++
        padStart (toString (d.getMonth + 1)) 2 '0' ++ "-" ++
        padStart (toString d.getDate) 2 '0' ++ " " ++
        padStart (toString d.getHours) 2 '0' ++ "-" ++
        padStart (toString d.getMinutes) 2 '0' ++ "-" ++
        padStart (toString d.getSeconds) 2 '0' = specCustomLayout d
    rw [e1, e2, e3, e4, e5]
    rfl
  · decide

theorem c6_custom_layout_witness :
    getFormattedTimestamp "custom" sampleDate = specCustomLayout sampleDate :=
  c6_custom_layout.1 sampleDate (by decide) (by decide) (by decide) (by decide) (by decide)

/-- C7: for every instant, an unknown selector, the absent-selector default
and the short selector all produce the same output, the locale short date,
and no error is raised (the formatter is total). -/
theorem c7_unknown_selector_fallback :
    ∀ (d : Date) (sel : String), sel ≠ "long" → sel ≠ "time" → sel ≠ "iso" → sel ≠ "custom" →
      getFormattedTimestamp sel d = getFormattedTimestamp "short" d ∧
      getFormattedTimestamp (formatOfSettings none) d = getFormattedTimestamp "short" d := by
  intro d sel h1 h2 h3 h4
  constructor
  · by_cases h0 : sel = "short"
    · rw [h0]
    · simp [getFormattedTimestamp, h0, h1, h2, h3, h4]
  · rfl

theorem c7_unknown_selector_fallback_witness :
    getFormattedTimestamp "bogus" sampleDate = getFormattedTimestamp "short" sampleDate :=
  (c7_unknown_selector_fallback sampleDate "bogus" (by decide) (by decide) (by decide)
    (by decide)).1

/-- C8: for every instant, the iso selector returns the ISO-8601 combined
UTC date/time rendering with millisecond precision and trailing Z, and the
spec sample instant renders as 2024-04-05T18:30:00.000Z. -/
theorem c8_iso_format :
    (∀ d : Date, getFormattedTimestamp "iso" d = toISOString d) ∧
    getFormattedTimestamp "iso" sampleDate = "2024-04-05T18:30:00.000Z" := by
  exact ⟨fun d => rfl, by decide⟩

theorem linuxKeyCmd_ne_copyCmd (t : String) : linuxKeyCmd ≠ linuxCopyCmd t := by
  intro hEq
  have h2 : some 'x' = some 'e' := by
    calc some 'x' = linuxKeyCmd.data.head? := rfl
    _ = (linuxCopyCmd t).data.head? := by rw [hEq]
    _ = some 'e' := rfl
  exact absurd h2 (by decide)

/-- C3: on Linux, whenever the clipboard command fails, copyPasteText throws
an error naming the missing utility xclip, only the clipboard command was
issued, and the xdotool keystroke command is never invoked. -/
theorem c3_linux_missing_xclip :
    ∀ (text e : String) (execB : String → ExecResult),
      execB (linuxCopyCmd text) = ExecResult.failure e →
      (copyPasteText Platform.linux execB text).thrown = some linuxErrMsg ∧
      strContains linuxErrMsg "xclip" ∧
      (copyPasteText Platform.linux execB text).commands = [linuxCopyCmd text] ∧
      linuxKeyCmd ∉ (copyPasteText Platform.linux execB text).commands := by
  intro text e execB h
  have hred : copyPasteText Platform.linux execB text =
      ⟨[linuxCopyCmd text], [(LogLevel.warn, linuxWarnMsg)], some linuxErrMsg⟩ := by
    simp [copyPasteText, h]
  rw [hred]
  refine ⟨rfl, by decide, rfl, ?_⟩
  simp only [List.mem_singleton]
  exact linuxKeyCmd_ne_copyCmd text

theorem c3_linux_missing_xclip_witness :
    (copyPasteText Platform.linux (execFailOn (linuxCopyCmd "ts") "ENOENT") "ts").thrown =
      some linuxErrMsg ∧
    strContains linuxErrMsg "xclip" ∧
    (copyPasteText Platform.linux (execFailOn (linuxCopyCmd "ts") "ENOENT") "ts").commands =
      [linuxCopyCmd "ts"] ∧
    linuxKeyCmd ∉
      (copyPasteText Platform.linux (execFailOn (linuxCopyCmd "ts") "ENOENT") "ts").commands :=
  c3_linux_missing_xclip "ts" "ENOENT" (execFailOn (linuxCopyCmd "ts") "ENOENT")
    (by simp [execFailOn])

/-- C4: the key handler never propagates an error to the host; when
copyPasteText resolves, showOk is invoked exactly once; when it rejects,
showOk is never invoked and the error is logged. -/
theorem c4_ack_once_and_suppress :
    ∀ (p : Platform) (execB : String → ExecResult) (now : Date) (fmt : Option String),
      (onKeyDown p execB now fmt).thrown = none ∧
      ((copyPasteText p execB (getFormattedTimestamp (formatOfSettings fmt) now)).thrown = none →
        (onKeyDown p execB now fmt).showOkCalls = 1) ∧
      (∀ m,
        (copyPasteText p execB (getFormattedTimestamp (formatOfSettings fmt) now)).thrown = some m →
        (onKeyDown p execB now fmt).showOkCalls = 0 ∧
        (LogLevel.error, "Error getting timestamp: Error: " ++ m) ∈
          (onKeyDown p execB now fmt).logs) := by
  intro p execB now fmt
  cases hth : (copyPasteText p execB (getFormattedTimestamp (formatOfSettings fmt) now)).thrown with
  | none =>
    refine ⟨by simp [onKeyDown, hth], fun _ => by simp [onKeyDown, hth], fun m hm => ?_⟩
    simp at hm
  | some m0 =>
    refine ⟨by simp [onKeyDown, hth], fun hc => ?_, fun m hm => ?_⟩
    · simp at hc
    · injection hm with hm'
      subst hm'
      exact ⟨by simp [onKeyDown, hth], by simp [onKeyDown, hth]⟩

theorem c4_ack_once_and_suppress_witness :
    (onKeyDown Platform.darwin execOkAll sampleDate (some "iso")).showOkCalls = 1 ∧
    (onKeyDown Platform.darwin execFailAll sampleDate (some "iso")).showOkCalls = 0 ∧
    (LogLevel.error, "Error getting timestamp: Error: " ++ macWrapMsg "boom") ∈
      (onKeyDown Platform.darwin execFailAll sampleDate (some "iso")).logs :=
  ⟨(c4_ack_once_and_suppress Platform.darwin execOkAll sampleDate (some "iso")).2.1 (by decide),
   ((c4_ack_once_and_suppress Platform.darwin execFailAll sampleDate (some "iso")).2.2
      (macWrapMsg "boom") (by decide)).1,
   ((c4_ack_once_and_suppress Platform.darwin execFailAll sampleDate (some "iso")).2.2
      (macWrapMsg "boom") (by decide)).2⟩

/-- C5 counterexample: on the Linux branch the wrapped error does not include
the underlying error text: an exec failure carrying the text boom is
re-raised as the fixed message, which does not contain boom. -/
theorem c5_linux_message_drops_error_text :
    (copyPasteText Platform.linux execFailAll "x").thrown = some linuxErrMsg ∧
    ¬ strContains linuxErrMsg "boom" := by decide

/-- C5 amended: every platform branch catches a failing external command and
re-raises a single wrapped error; on Windows and macOS the wrapped message
(also logged) includes the platform name and the underlying error text, while
on Linux the message is a fixed string naming the platform and the required
utilities but not the underlying error text, with a warning logged. -/
theorem c5_platform_error_wrapping :
    ∀ (text e : String) (execB : String → ExecResult),
      (execB (winCommand text) = ExecResult.failure e →
        (copyPasteText Platform.win32 execB text).thrown = some (winWrapMsg e) ∧
        strContains (winWrapMsg e) "Windows" ∧ strContains (winWrapMsg e) e ∧
        (LogLevel.error, winWrapMsg e) ∈ (copyPasteText Platform.win32 execB text).logs) ∧
      (execB (macCopyCmd text) = ExecResult.failure e →
        (copyPasteText Platform.darwin execB text).thrown = some (macWrapMsg e) ∧
        strContains (macWrapMsg e) "macOS" ∧ strContains (macWrapMsg e) e ∧
        (LogLevel.error, macWrapMsg e) ∈ (copyPasteText Platform.darwin execB text).logs) ∧
      (execB (macCopyCmd text) = ExecResult.success → execB macKeyCmd = ExecResult.failure e →
        (copyPasteText Platform.darwin execB text).thrown = some (macWrapMsg e)) ∧
      (execB (linuxCopyCmd text) = ExecResult.failure e →
        (copyPasteText Platform.linux execB text).thrown = some linuxErrMsg ∧
        strContains linuxErrMsg "Linux" ∧ strContains linuxErrMsg "xclip" ∧
        strContains linuxErrMsg "xdotool" ∧
        (LogLevel.warn, linuxWarnMsg) ∈ (copyPasteText Platform.linux execB text).logs) ∧
      (execB (linuxCopyCmd text) = ExecResult.success →
        execB linuxKeyCmd = ExecResult.failure e →
        (copyPasteText Platform.linux execB text).thrown = some linuxErrMsg) := by
  intro text e execB
  refine ⟨fun h => ⟨?_, ?_, ?_, ?_⟩, fun h => ⟨?_, ?_, ?_, ?_⟩, fun h1 h2 => ?_,
    fun h => ⟨?_, by decide, by decide, by decide, ?_⟩, fun h1 h2 => ?_⟩
  · simp [copyPasteText, h]
  · exact strContains_append_left _ e _ (by decide)
  · exact strContains_append_right _ e
  · simp [copyPasteText, h]
  · simp [copyPasteText, h]
  · exact strContains_append_left _ e _ (by decide)
  · exact strContains_append_right _ e
  · simp [copyPasteText, h]
  · simp [copyPasteText, h1, h2]
  · simp [copyPasteText, h]
  · simp [copyPasteText, h]
  · simp [copyPasteText, h1, h2]

theorem c5_platform_error_wrapping_witness :
    (copyPasteText Platform.win32 (execFailOn (winCommand "x") "boom") "x").thrown =
      some (winWrapMsg "boom") ∧
    (copyPasteText Platform.darwin (execFailOn (macCopyCmd "x") "boom") "x").thrown =
      some (macWrapMsg "boom") ∧
    (copyPasteText Platform.darwin (execFailOn macKeyCmd "boom") "x").thrown =
      some (macWrapMsg "boom") ∧
    (copyPasteText Platform.linux (execFailOn (linuxCopyCmd "x") "boom") "x").thrown =
      some linuxErrMsg ∧
    (copyPasteText Platform.linux (execFailOn linuxKeyCmd "boom") "x").thrown =
      some linuxErrMsg :=
  ⟨((c5_platform_error_wrapping "x" "boom" (execFailOn (winCommand "x") "boom")).1
      (by simp [execFailOn])).1,
   ((c5_platform_error_wrapping "x" "boom" (execFailOn (macCopyCmd "x") "boom")).2.1
      (by simp [execFailOn])).1,
   (c5_platform_error_wrapping "x" "boom" (execFailOn macKeyCmd "boom")).2.2.1
      (by decide) (by simp [execFailOn]),
   ((c5_platform_error_wrapping "x" "boom" (execFailOn (linuxCopyCmd "x") "boom")).2.2.2.1
      (by simp [execFailOn])).1,
   (c5_platform_error_wrapping "x" "boom" (execFailOn linuxKeyCmd "boom")).2.2.2.2
      (by decide) (by simp [execFailOn])⟩

theorem stepsOfCmd_macKey : stepsOfCmd macKeyCmd = [Step.pasteKeystroke] := by decide

theorem stepsOfCmd_linuxKey : stepsOfCmd linuxKeyCmd = [Step.pasteKeystroke] := by decide

/-- C9: on every platform branch the clipboard-writing effect strictly
precedes the paste-keystroke effect, and no execution sends the keystroke
before the clipboard write: the effect trace is always the clipboard write
alone, or the clipboard write followed by the keystroke. The hypotheses pin
the effects of the three text-carrying commands for the given text (they
hold whenever the text does not itself mention one of the utilities, as for
every timestamp). -/
theorem c9_clipboard_before_keystroke :
    ∀ (p : Platform) (execB : String → ExecResult) (text : String),
      stepsOfCmd (winCommand text) = [Step.clipboardWrite, Step.pasteKeystroke] →
      stepsOfCmd (macCopyCmd text) = [Step.clipboardWrite] →
      stepsOfCmd (linuxCopyCmd text) = [Step.clipboardWrite] →
      stepTrace p execB text = [Step.clipboardWrite] ∨
        stepTrace p execB text = [Step.clipboardWrite, Step.pasteKeystroke] := by
  intro p execB text hw hm hl
  cases p with
  | win32 =>
    right
    cases hcmd : execB (winCommand text) <;>
      simp [stepTrace, copyPasteText, hcmd, stepsOfTrace, hw]
  | darwin =>
    cases h1 : execB (macCopyCmd text) with
    | success =>
      right
      cases h2 : execB macKeyCmd <;>
        simp [stepTrace, copyPasteText, h1, h2, stepsOfTrace, hm, stepsOfCmd_macKey]
    | failure e =>
      left
      simp [stepTrace, copyPasteText, h1, stepsOfTrace, hm]
  | linux =>
    cases h1 : execB (linuxCopyCmd text) with
    | success =>
      right
      cases h2 : execB linuxKeyCmd <;>
        simp [stepTrace, copyPasteText, h1, h2, stepsOfTrace, hl, stepsOfCmd_linuxKey]
    | failure e =>
      left
      simp [stepTrace, copyPasteText, h1, stepsOfTrace, hl]

theorem c9_clipboard_before_keystroke_witness :
    stepTrace Platform.darwin execOkAll "2024-04-05 13-30-00" = [Step.clipboardWrite] ∨
    stepTrace Platform.darwin execOkAll "2024-04-05 13-30-00" =
      [Step.clipboardWrite, Step.pasteKeystroke] :=
  c9_clipboard_before_keystroke Platform.darwin execOkAll "2024-04-05 13-30-00"
    (by decide) (by decide) (by decide)

/-- C10: a key press whose settings carry the empty-string format behaves
exactly as if the format were absent: the falsy empty string is replaced by
the internal default selector, whose output is the short locale-date form. -/
theorem c10_empty_format_defaults :
    ∀ (p : Platform) (execB : String → ExecResult) (d : Date),
      onKeyDown p execB d (some "") = onKeyDown p execB d none ∧
      formatOfSettings (some "") = "default" ∧
      getFormattedTimestamp "default" d = getFormattedTimestamp "short" d := by
  intro p execB d
  exact ⟨rfl, rfl, rfl⟩
